import Mathlib

/-!
Shallow embedding of the LineUp column-model core: the
`CompositeNumberColumn` class (dump/restore, value access, comparison),
the `countMultiLevel` depth counter and histogram cache of
`HeaderRenderer`, and `LineUp.sortBy`.  JavaScript numbers are modelled
as rationals plus explicit `NaN`/`null`/`undefined` variants where the
code distinguishes them.
-/

namespace LineUpVerify

/-- A raw data row (the core never inspects rows itself; accessors are
handed the row and its index). -/
abbrev Row := List ℚ

/-- Result values of the `compute` reduction: JavaScript lets it return
a finite number, `NaN`, `null` or `undefined`. -/
inductive CVal where
  | undef
  | null
  | nan
  | num (q : ℚ)
deriving DecidableEq, Repr

/-- The JavaScript test used by `getValue`:
`typeof v === 'undefined' || v == null || isNaN(v)` (loose equality
`v == null` also catches `undefined`). -/
def CVal.isMissing : CVal → Bool
  | .undef => true
  | .null => true
  | .nan => true
  | .num _ => false

/-- Observable data of a child column, as preserved by dump/restore.
Modelled from the spec: child columns are arbitrary `Column`s whose own
dump/restore (not under src/) round-trips them exactly and preserves
order. -/
structure ChildColumn where
  id : String
  width : ℚ
deriving DecidableEq, Repr

/-- `ICompositeNumberDesc`: descriptor with the optional d3 number
format (default `.3n`) and optional missing value (default 0). -/
structure ICompositeNumberDesc where
  numberFormat : Option String
  missingValue : Option ℚ
deriving DecidableEq, Repr

/-- Parses a d3 format spec of the fixed-notation form `.Nf` with one
precision digit, the directive family the embedding renders
concretely. -/
def fixedPrecision (spec : String) : Option ℕ :=
  match spec.toList with
  | ['.', c, 'f'] => if c.isDigit then some (c.toNat - Char.toNat '0') else none
  | _ => none

/-- Left-pads a digit string with zeros to the given width. -/
def padZeros (s : String) (w : ℕ) : String :=
  if s.length ≥ w then s else String.mk (List.replicate (w - s.length) '0') ++ s

/-- `Number.prototype.toFixed(p)`, the renderer d3 uses for the `f`
directive: the integer nearest to `x * 10 ^ p`, on a tie the larger
integer — that is the floor of `x * 10 ^ p + 1 / 2`, computed here by
floor division on the numerator and denominator — printed with `p`
digits after the decimal point. -/
def renderFixed (x : ℚ) (p : ℕ) : String :=
  let n : ℤ :=
    Int.fdiv (2 * x.num * ((10 ^ p : ℕ) : ℤ) + (x.den : ℤ)) (2 * (x.den : ℤ))
  let sign := if n < 0 then "-" else ""
  let a := n.natAbs
  if p = 0 then sign ++ toString a
  else sign ++ toString (a / 10 ^ p) ++ "." ++ padZeros (toString (a % 10 ^ p)) p

/-- Model of the external d3 `format` function, faithful on the
fixed-notation fragment: a spec of the form `.Nf` renders via
`renderFixed`.  Every other spec is modelled conservatively as plain
stringification with no dependence on the spec text, so the model
never distinguishes two formatters that the real library could render
identically. -/
def d3format (spec : String) (q : ℚ) : String :=
  match fixedPrecision spec with
  | some p => renderFixed q p
  | none => toString q

/-- Observable state of a `CompositeNumberColumn`.  The fields `width`,
`compressed`, `filtered`, `collapsed`, `loaded` and `children` live on
the superclasses `Column`/`CompositeColumn` (not under src/) and are
modelled from the spec; `missingValue` and `numberFormat` are the
fields of the class itself.  `numberFormat` stores the d3 format spec
in effect. -/
structure CompositeNumberColumn where
  id : String
  desc : ICompositeNumberDesc
  width : ℚ
  compressed : Bool
  filtered : Bool
  collapsed : Bool
  loaded : Bool
  missingValue : ℚ
  numberFormat : String
  children : List ChildColumn
deriving DecidableEq, Repr

/-- The number format the constructor derives from the descriptor:
`if (desc.numberFormat) this.numberFormat = format(desc.numberFormat)`
(an absent or empty spec keeps the default `.3n`). -/
def descFormat (desc : ICompositeNumberDesc) : String :=
  match desc.numberFormat with
  | some f => if f = "" then ".3n" else f
  | none => ".3n"

/-- The missing value the constructor derives from the descriptor:
`if (desc.missingValue !== undefined) this.missingValue = desc.missingValue`
with field default 0. -/
def descMissingValue (desc : ICompositeNumberDesc) : ℚ :=
  match desc.missingValue with
  | some m => m
  | none => 0

/-- The constructor `new CompositeNumberColumn(id, desc)`.  Width and
flag defaults come from the `Column` base constructor (not under src/),
modelled from the spec; a freshly constructed non-lazy column is
loaded and has no children. -/
def mkCompositeNumberColumn (id : String) (desc : ICompositeNumberDesc) :
    CompositeNumberColumn where
  id := id
  desc := desc
  width := 100
  compressed := false
  filtered := false
  collapsed := false
  loaded := true
  missingValue := descMissingValue desc
  numberFormat := descFormat desc
  children := []

/-- The plain record produced by `dump`.  The base fields
(identifier, descriptor reference, width, flags, child dumps in order)
are written by `Column.dump`/`CompositeColumn.dump` (not under src/),
modelled from the spec layout
`{type, width, compressed, filtered, collapsed, children}`; the base
record also carries the loaded state of a lazily populated column,
modelled from the spec invariant that restoring a dump reproduces
identical value access for all rows, which requires the flag to
survive the round trip.  Type-specific extras are `Option`-valued so
the record shows whether the field is present at all. -/
structure ColumnDump where
  id : String
  descRef : ICompositeNumberDesc
  width : ℚ
  compressed : Bool
  filtered : Bool
  collapsed : Bool
  loaded : Bool
  children : List ChildColumn
  missingValue : Option ℚ
  numberFormat : Option String
deriving DecidableEq, Repr

/-- Modelled from the spec: `super.dump(toDescRef)` of
`Column`/`CompositeColumn` (not under src/) — the base record with
identifier, descriptor reference, width, flags and child dumps in
order; no type-specific extras are present yet. -/
def superDump (c : CompositeNumberColumn) : ColumnDump where
  id := c.id
  descRef := c.desc
  width := c.width
  compressed := c.compressed
  filtered := c.filtered
  collapsed := c.collapsed
  loaded := c.loaded
  children := c.children
  missingValue := none
  numberFormat := none

/-- `CompositeNumberColumn.dump`: takes the base record and adds
`r.missingValue = this.missingValue`. -/
def CompositeNumberColumn.dump (c : CompositeNumberColumn) : ColumnDump :=
  let r := superDump c
  { r with missingValue := some c.missingValue }

/-- Modelled from the spec: `super.restore(dump, factory)` of
`Column`/`CompositeColumn` (not under src/) — restores width, the
flags (including the loaded state, per the spec invariant that value
access behaves identically after restore) and recreates the children
from the child dumps via the factory, preserving order. -/
def superRestore (c : CompositeNumberColumn) (d : ColumnDump) :
    CompositeNumberColumn :=
  { c with
    width := d.width
    compressed := d.compressed
    filtered := d.filtered
    collapsed := d.collapsed
    loaded := d.loaded
    children := d.children }

/-- `CompositeNumberColumn.restore`: sets `missingValue` when the field
is present (`!== undefined`), sets the formatter when `dump.numberFormat`
is truthy (an empty string is falsy), then calls `super.restore`. -/
def CompositeNumberColumn.restore (c : CompositeNumberColumn)
    (d : ColumnDump) : CompositeNumberColumn :=
  let c1 :=
    match d.missingValue with
    | some m => { c with missingValue := m }
    | none => c
  let c2 :=
    match d.numberFormat with
    | some f => if f = "" then c1 else { c1 with numberFormat := f }
    | none => c1
  superRestore c2 d

/-- The restore flow of the serialization contract: the factory
instantiates a column from the descriptor reference carried by the
record, then `restore` is applied.  Modelled from the spec (section on
dump/restore): the factory resolves the descriptor reference back to a
concrete column. -/
def restoreColumn (d : ColumnDump) : CompositeNumberColumn :=
  CompositeNumberColumn.restore (mkCompositeNumberColumn d.id d.descRef) d

/-- `getValue(row, index)`: `null` when the column is not loaded;
otherwise the computed value, with `undefined`/`null`/`NaN` replaced by
the missing-value substitute.  `none` models the JavaScript `null`
returned for an unloaded column.  The reduction `compute` is the
subclass hook (the base class returns `NaN`); it reads the children of
the column. -/
def CompositeNumberColumn.getValue (c : CompositeNumberColumn)
    (compute : List ChildColumn → Row → Nat → CVal)
    (row : Row) (i : Nat) : Option ℚ :=
  if c.loaded then
    match compute c.children row i with
    | .undef => some c.missingValue
    | .null => some c.missingValue
    | .nan => some c.missingValue
    | .num q => some q
  else
    none

/-- `getLabel(row, index)`: the empty string when not loaded; otherwise
`'' + (typeof v === 'number' ? this.numberFormat(v) : v)` — the format
is applied to a number, any other value is stringified unchanged
(`null` stringifies to "null"). -/
def CompositeNumberColumn.getLabel (c : CompositeNumberColumn)
    (compute : List ChildColumn → Row → Nat → CVal)
    (row : Row) (i : Nat) : String :=
  if c.loaded then
    match c.getValue compute row i with
    | some q => d3format c.numberFormat q
    | none => "null"
  else
    ""

/-- JavaScript arithmetic coercion applied to a number-or-null value
(`null` coerces to 0). -/
def jsCoerceNum : Option ℚ → ℚ
  | some q => q
  | none => 0

/-- Modelled from the spec: `numberCompare` of `NumberColumn` (file not
under src/) — a total-order numeric comparator over plain numbers,
`a - b` on the coerced inputs. -/
def numberCompare (a b : Option ℚ) : ℚ :=
  jsCoerceNum a - jsCoerceNum b

/-- `compare(a, b, aIndex, bIndex)`: delegates to `numberCompare` on
the two `getValue` results. -/
def CompositeNumberColumn.compare (c : CompositeNumberColumn)
    (compute : List ChildColumn → Row → Nat → CVal)
    (a b : Row) (aIndex bIndex : Nat) : ℚ :=
  numberCompare (c.getValue compute a aIndex) (c.getValue compute b bIndex)

/-- `getNumber(row, index)`: returns `this.getValue(row, index)`. -/
def CompositeNumberColumn.getNumber (c : CompositeNumberColumn)
    (compute : List ChildColumn → Row → Nat → CVal)
    (row : Row) (i : Nat) : Option ℚ :=
  c.getValue compute row i

/-- `getRawNumber(row, index)`: returns `this.getNumber(row, index)`. -/
def CompositeNumberColumn.getRawNumber (c : CompositeNumberColumn)
    (compute : List ChildColumn → Row → Nat → CVal)
    (row : Row) (i : Nat) : Option ℚ :=
  c.getNumber compute row i

/-! `countMultiLevel` of HeaderRenderer.ts: how many stacked header
rows a column needs. -/

/-- The column tree as seen by `countMultiLevel`: a column either is a
multi-level composite (it has `getCollapsed` and children) or it is
not; every column has `getCompressed`. -/
inductive ColTree where
  | leaf (compressed : Bool)
  | multi (collapsed : Bool) (compressed : Bool) (children : List ColTree)
deriving Repr

/-- `Math.max.apply(Math, l)`: the maximum of a list of numbers, with
`-Infinity` (modelled as the bottom of `WithBot`) for the empty list. -/
def jsMaxList (l : List (WithBot ℤ)) : WithBot ℤ :=
  l.foldr max ⊥

/-- `countMultiLevel(c)`: 1 for anything that is not an expanded
multi-level composite; otherwise
`1 + Math.max.apply(Math, c.children.map(countMultiLevel))`.
The result lives in `WithBot ℤ` because the JavaScript maximum of an
empty child list is `-Infinity`. -/
def countMultiLevel : ColTree → WithBot ℤ
  | .leaf _ => 1
  | .multi collapsed compressed children =>
    if collapsed || compressed then 1
    else 1 + jsMaxList (children.attach.map (fun x => countMultiLevel x.1))
decreasing_by
  have h := List.sizeOf_lt_of_mem x.2
  simp_wf
  omega

/-! The histogram cache of HeaderRenderer.ts. -/

/-- The column kinds `updateHist` dispatches on
(`d instanceof NumberColumn`, `isCategoricalColumn(d)`). -/
inductive ColKind where
  | number
  | categorical
  | other
deriving DecidableEq, Repr

/-- A column as seen by the header renderer cache: its identifier, its
kind and its hidden flag. -/
structure RCol where
  id : String
  kind : ColKind
  hidden : Bool
deriving DecidableEq, Repr

/-- A ranking as seen by `updateHist`: its current order (`null` when
absent) and its flat list of columns. -/
structure Ranking where
  order : Option (List Nat)
  flatColumns : List RCol
deriving DecidableEq, Repr

/-- The value stored in the cache: a statistics handle freshly computed
from an order for a column (`data.stats(order).stats(col)` or
`data.stats(order).hist(col)`), modelled by the data it was computed
from. -/
inductive StatsHandle where
  | stats (order : List Nat) (colId : String)
  | hist (order : List Nat) (colId : String)
deriving DecidableEq, Repr

/-- The `histCache` map: keys are column identifiers, values are a
handle or `null`. -/
abbrev Cache := List (String × Option StatsHandle)

/-- `Map.get`. -/
def mapGet (m : Cache) (k : String) : Option (Option StatsHandle) :=
  match m with
  | [] => none
  | (k2, v) :: rest => if k2 = k then some v else mapGet rest k

/-- `Map.set`: replaces the value of an existing key in place,
otherwise appends the new entry. -/
def mapSet (m : Cache) (k : String) (v : Option StatsHandle) : Cache :=
  match m with
  | [] => [(k, v)]
  | (k2, v2) :: rest =>
    if k2 = k then (k2, v) :: rest else (k2, v2) :: mapSet rest k v

/-- The visible number columns of a ranking:
`cols.filter((d) => d instanceof NumberColumn && !d.isHidden())`. -/
def numVisible (r : Ranking) : List RCol :=
  r.flatColumns.filter (fun c => c.kind = ColKind.number && !c.hidden)

/-- The visible categorical columns of a ranking:
`cols.filter((d) => isCategoricalColumn(d) && !d.isHidden())`. -/
def catVisible (r : Ranking) : List RCol :=
  r.flatColumns.filter (fun c => c.kind = ColKind.categorical && !c.hidden)

/-- The cache entry written for a visible number column:
`histo === null ? null : histo.stats(col)`. -/
def numEntry (r : Ranking) (c : RCol) : Option StatsHandle :=
  r.order.map (fun o => StatsHandle.stats o c.id)

/-- The cache entry written for a visible categorical column:
`histo === null ? null : histo.hist(col)`. -/
def catEntry (r : Ranking) (c : RCol) : Option StatsHandle :=
  r.order.map (fun o => StatsHandle.hist o c.id)

/-- Writes `f c` into the cache under `c.id` for every column of the
list, in order. -/
def setAll (f : RCol → Option StatsHandle) (cols : List RCol) (m : Cache) :
    Cache :=
  cols.foldl (fun acc c => mapSet acc c.id (f c)) m

/-- The body of `updateHist` for one ranking: first every visible
number column, then every visible categorical column receives a fresh
entry under its identifier. -/
def updateHistRanking (m : Cache) (r : Ranking) : Cache :=
  setAll (catEntry r) (catVisible r) (setAll (numEntry r) (numVisible r) m)

/-- `updateHist`: iterates over all rankings of the data provider. -/
def updateHist (m : Cache) (rankings : List Ranking) : Cache :=
  rankings.foldl updateHistRanking m

/-- The `EVENT_ORDER_CHANGED` listener wired by `changeDataStorage`:
only installed when the histograms option is on; it runs `updateHist`
(the subsequent `update()` does not touch the cache further because it
is no longer empty). -/
def handleOrderChanged (histograms : Bool) (m : Cache)
    (rankings : List Ranking) : Cache :=
  if histograms then updateHist m rankings else m

/-- The identifiers `updateHistRanking` writes for a ranking. -/
def touched (r : Ranking) : List String :=
  (numVisible r).map (fun c => c.id) ++ (catVisible r).map (fun c => c.id)

/-- The fresh entry the claim expects for a visible number or
categorical column of a ranking. -/
def freshEntry (r : Ranking) (c : RCol) : Option StatsHandle :=
  match c.kind with
  | ColKind.number => numEntry r c
  | _ => catEntry r c

/-! `LineUp.sortBy` of lineup.ts. -/

/-- A column as seen by the data provider in `sortBy`. -/
structure PCol where
  id : String
deriving DecidableEq, Repr

/-- The sort criterion of a ranking: column plus direction. -/
structure SortCriterion where
  colId : String
  asc : Bool
deriving DecidableEq, Repr

/-- The provider state `sortBy` touches: the searchable columns and
the active sort criterion. -/
structure ProviderState where
  columns : List PCol
  criterion : Option SortCriterion
deriving Repr

/-- The selector argument of `sortBy`: a column identifier or a
predicate. -/
inductive Selector where
  | byId (id : String)
  | byPred (p : PCol → Bool)

/-- Modelled from the spec: `ADataProvider.find` (file not under
src/) — locates the first column matching the selector, `null` (here
`none`) when no column matches. -/
def findColumn (st : ProviderState) : Selector → Option PCol
  | .byId i => st.columns.find? (fun c => c.id = i)
  | .byPred p => st.columns.find? p

/-- Modelled from the spec: `Column.sortByMe(ascending)` (file not
under src/) — replaces the active criterion outright with this column
and the given direction. -/
def sortByMe (st : ProviderState) (c : PCol) (asc : Bool) : ProviderState :=
  { st with criterion := some ⟨c.id, asc⟩ }

/-- `LineUp.sortBy(column, ascending)`: finds the column via the
provider, invokes `sortByMe` when found, and returns `col !== null`.
Returns the pair (returned boolean, resulting provider state). -/
def sortBy (st : ProviderState) (sel : Selector) (asc : Bool) :
    Bool × ProviderState :=
  match findColumn st sel with
  | some c => (true, sortByMe st c asc)
  | none => (false, st)

/-! Concrete instances used to evaluate the definitions. -/

/-- A descriptor with the default number format spelled out. -/
def descEx : ICompositeNumberDesc :=
  { numberFormat := some ".3n", missingValue := none }

/-- A descriptor whose format directive is zero-decimal fixed
notation. -/
def descF0 : ICompositeNumberDesc :=
  { numberFormat := some ".0f", missingValue := none }

/-- A persisted record that carries a `numberFormat` field, as the
`restore` code explicitly accepts (`if (dump.numberFormat) ...`). -/
def foreignDump : ColumnDump where
  id := "c0"
  descRef := descF0
  width := 120
  compressed := false
  filtered := false
  collapsed := false
  loaded := true
  children := [⟨"k0", 50⟩]
  missingValue := some 0
  numberFormat := some ".2f"

/-- A column obtained through the public restore entry point from
`foreignDump`; its formatter is `.2f` while its descriptor says
`.0f`. -/
def colEx : CompositeNumberColumn := restoreColumn foreignDump

/-- A freshly constructed column. -/
def colA : CompositeNumberColumn := mkCompositeNumberColumn "a" descEx

/-- The same column with the loaded flag cleared. -/
def colU : CompositeNumberColumn := { colA with loaded := false }

/-- A concrete reduction: the first entry of the row, `NaN` for an
empty row. -/
def computeEx (_children : List ChildColumn) (row : Row) (_i : Nat) :
    CVal :=
  match row with
  | [] => CVal.nan
  | q :: _ => CVal.num q

end LineUpVerify

namespace LineUpVerify

/-! Theorems. -/

/-- Claim C10: for every `CompositeNumberColumn`, every reduction,
every row and every row index, `getNumber` and `getRawNumber` both
return exactly `getValue`. -/
theorem getNumber_getRawNumber_eq_getValue (c : CompositeNumberColumn)
    (compute : List ChildColumn → Row → Nat → CVal) (row : Row) (i : Nat) :
    c.getNumber compute row i = c.getValue compute row i ∧
    c.getRawNumber compute row i = c.getValue compute row i :=
  ⟨rfl, rfl⟩

/-- Claim C9: `sortBy` returns `true` exactly when the provider find
locates a column; when it does, the state becomes `sortByMe` of that
column with the given direction, and otherwise the state (with its
sort criterion) is unchanged. -/
theorem sortBy_spec (st : ProviderState) (sel : Selector) (asc : Bool) :
    (sortBy st sel asc).1 = (findColumn st sel).isSome ∧
    (sortBy st sel asc).2 =
      (match findColumn st sel with
       | some c => sortByMe st c asc
       | none => st) := by
  cases h : findColumn st sel <;> simp [sortBy, h]

/-- Claim C3, counterexample: the record produced by `dump` on a
concrete column carries the `missingValue` field but no `numberFormat`
field. -/
theorem dump_numberFormat_missing_cex :
    (CompositeNumberColumn.dump colA).missingValue.isSome = true ∧
    (CompositeNumberColumn.dump colA).numberFormat.isSome = false :=
  ⟨rfl, rfl⟩

/-- Claim C3, amended: for every `CompositeNumberColumn` the dump
record carries the base fields, the children in order and the
`missingValue` extra, but never a `numberFormat` field. -/
theorem dump_fields (c : CompositeNumberColumn) :
    (CompositeNumberColumn.dump c).missingValue = some c.missingValue ∧
    (CompositeNumberColumn.dump c).numberFormat = none ∧
    (CompositeNumberColumn.dump c).width = c.width ∧
    (CompositeNumberColumn.dump c).compressed = c.compressed ∧
    (CompositeNumberColumn.dump c).filtered = c.filtered ∧
    (CompositeNumberColumn.dump c).collapsed = c.collapsed ∧
    (CompositeNumberColumn.dump c).children = c.children :=
  ⟨rfl, rfl, rfl, rfl, rfl, rfl, rfl⟩

/-- Claim C6: while the loaded flag is not set, `getValue` returns the
`null` sentinel (never a computed value) and `getLabel` returns the
empty placeholder label, for every reduction, row and index. -/
theorem unloaded_returns_sentinel (c : CompositeNumberColumn)
    (compute : List ChildColumn → Row → Nat → CVal) (row : Row) (i : Nat)
    (hl : c.loaded = false) :
    c.getValue compute row i = none ∧ c.getLabel compute row i = "" := by
  constructor <;>
    simp [CompositeNumberColumn.getValue, CompositeNumberColumn.getLabel, hl]

theorem unloaded_returns_sentinel_w :
    colU.loaded = false ∧
    colU.getValue computeEx [3] 0 = none ∧
    colU.getLabel computeEx [3] 0 = "" :=
  ⟨rfl, (unloaded_returns_sentinel colU computeEx [3] 0 rfl).1,
    (unloaded_returns_sentinel colU computeEx [3] 0 rfl).2⟩

/-- Claim C2: on a loaded column, if the reduction yields `NaN`,
`undefined` or `null` then `getValue` returns the missing-value
substitute of the column, and otherwise the computed number unchanged;
the substitute defaults to 0 and is overridable via the descriptor. -/
theorem getValue_missing_substitute (c : CompositeNumberColumn)
    (compute : List ChildColumn → Row → Nat → CVal) (row : Row) (i : Nat)
    (hl : c.loaded = true) :
    ((compute c.children row i).isMissing = true →
      c.getValue compute row i = some c.missingValue) ∧
    (∀ q, compute c.children row i = CVal.num q →
      c.getValue compute row i = some q) ∧
    (∀ id desc, (mkCompositeNumberColumn id desc).missingValue =
      descMissingValue desc) := by
  refine ⟨fun hm => ?_, fun q hq => ?_, fun id desc => rfl⟩
  · cases h : compute c.children row i <;>
      simp_all [CompositeNumberColumn.getValue, CVal.isMissing]
  · simp [CompositeNumberColumn.getValue, hl, hq]

theorem getValue_missing_substitute_w :
    colA.loaded = true ∧
    (computeEx colA.children [] 0).isMissing = true ∧
    colA.getValue computeEx [] 0 = some colA.missingValue ∧
    colA.getValue computeEx [7] 0 = some 7 :=
  ⟨rfl, rfl, (getValue_missing_substitute colA computeEx [] 0 rfl).1 rfl,
    (getValue_missing_substitute colA computeEx [7] 0 rfl).2.1 7 rfl⟩

/-- Claim C5: on a loaded column, `getLabel` applies the configured
number format when `getValue` yields a number and stringifies the
value unchanged when it does not. -/
theorem getLabel_applies_format (c : CompositeNumberColumn)
    (compute : List ChildColumn → Row → Nat → CVal) (row : Row) (i : Nat)
    (hl : c.loaded = true) :
    (∀ q, c.getValue compute row i = some q →
      c.getLabel compute row i = d3format c.numberFormat q) ∧
    (c.getValue compute row i = none →
      c.getLabel compute row i = "null") := by
  constructor <;> intros <;>
    simp_all [CompositeNumberColumn.getLabel, hl]

theorem getLabel_applies_format_w :
    colA.loaded = true ∧
    colA.getValue computeEx [7] 0 = some 7 ∧
    colA.getLabel computeEx [7] 0 = d3format colA.numberFormat 7 :=
  ⟨rfl, rfl, (getLabel_applies_format colA computeEx [7] 0 rfl).1 7 rfl⟩

/-- Claim C4: `compare` equals `numberCompare` on the two `getValue`
results; on a loaded column no `NaN`, `null` or `undefined` ever
reaches the comparator (`getValue` always yields a plain number), and
the induced ordering is total: `compare` is antisymmetric under
argument swap, any two rows are comparable, and the non-positive
relation is transitive. -/
theorem compare_total_order (c : CompositeNumberColumn)
    (compute : List ChildColumn → Row → Nat → CVal) :
    (∀ a b aI bI, c.compare compute a b aI bI =
      numberCompare (c.getValue compute a aI) (c.getValue compute b bI)) ∧
    (c.loaded = true → ∀ row i, (c.getValue compute row i).isSome = true) ∧
    (∀ a b aI bI, c.compare compute a b aI bI =
      -(c.compare compute b a bI aI)) ∧
    (∀ a b aI bI, c.compare compute a b aI bI ≤ 0 ∨
      c.compare compute b a bI aI ≤ 0) ∧
    (∀ a b d aI bI dI, c.compare compute a b aI bI ≤ 0 →
      c.compare compute b d bI dI ≤ 0 →
      c.compare compute a d aI dI ≤ 0) := by
  refine ⟨fun a b aI bI => rfl, fun hl row i => ?_,
    fun a b aI bI => ?_, fun a b aI bI => ?_, fun a b d aI bI dI h1 h2 => ?_⟩
  · cases h : compute c.children row i <;>
      simp [CompositeNumberColumn.getValue, hl, h]
  · simp [CompositeNumberColumn.compare, numberCompare]
  · simp only [CompositeNumberColumn.compare, numberCompare]
    rcases le_total (jsCoerceNum (c.getValue compute a aI))
      (jsCoerceNum (c.getValue compute b bI)) with h | h
    · exact Or.inl (by linarith)
    · exact Or.inr (by linarith)
  · simp only [CompositeNumberColumn.compare, numberCompare] at h1 h2 ⊢
    linarith

theorem compare_total_order_w :
    colA.loaded = true ∧
    (colA.getValue computeEx [5] 0).isSome = true ∧
    colA.compare computeEx [1] [2] 0 0 ≤ 0 ∧
    colA.compare computeEx [2] [3] 0 0 ≤ 0 ∧
    colA.compare computeEx [1] [3] 0 0 ≤ 0 :=
  ⟨rfl, (compare_total_order colA computeEx).2.1 rfl [5] 0,
    by norm_num [CompositeNumberColumn.compare, CompositeNumberColumn.getValue,
      numberCompare, jsCoerceNum, colA, mkCompositeNumberColumn, computeEx],
    by norm_num [CompositeNumberColumn.compare, CompositeNumberColumn.getValue,
      numberCompare, jsCoerceNum, colA, mkCompositeNumberColumn, computeEx],
    (compare_total_order colA computeEx).2.2.2.2 [1] [2] [3] 0 0 0
      (by norm_num [CompositeNumberColumn.compare, CompositeNumberColumn.getValue,
        numberCompare, jsCoerceNum, colA, mkCompositeNumberColumn, computeEx])
      (by norm_num [CompositeNumberColumn.compare, CompositeNumberColumn.getValue,
        numberCompare, jsCoerceNum, colA, mkCompositeNumberColumn, computeEx])⟩

/-- Claim C1, counterexample: `colEx` is reached through the public
restore entry point from a record carrying `numberFormat = ".2f"`,
while its descriptor says `.0f`; since `dump` does not write the
`numberFormat` field, restoring the dump of `colEx` falls back to the
descriptor format, and on the row holding the value 1 the labels
genuinely diverge: the `.2f` directive renders "1.00" while `.0f`
renders "1" (the same two strings real d3 produces at 1). -/
theorem restore_dump_roundtrip_cex :
    (restoreColumn (CompositeNumberColumn.dump colEx)).getLabel
        computeEx [1] 0 ≠
      colEx.getLabel computeEx [1] 0 := by
  decide

/-- The restored column is literally the original when the formatter
of the original is the one its descriptor induces. -/
theorem restore_dump_eq (x : CompositeNumberColumn)
    (hf : x.numberFormat = descFormat x.desc) :
    restoreColumn (CompositeNumberColumn.dump x) = x := by
  cases x with
  | mk id desc width compressed filtered collapsed loaded mv fmt children =>
    simp only [CompositeNumberColumn.numberFormat,
      CompositeNumberColumn.desc] at hf
    subst hf
    rfl

/-- Claim C1, amended: for every `CompositeNumberColumn` whose
formatter is the one induced by its descriptor (true of every column
never restored from a record that carries its own `numberFormat`),
restoring the record produced by `dump` yields a column with identical
`getValue`, `getLabel` and `compare` outputs for every reduction, row
and row index, and with the children preserved exactly in order. -/
theorem restore_dump_roundtrip (x : CompositeNumberColumn)
    (hf : x.numberFormat = descFormat x.desc) :
    (∀ compute row i,
      (restoreColumn (CompositeNumberColumn.dump x)).getValue compute row i =
        x.getValue compute row i) ∧
    (∀ compute row i,
      (restoreColumn (CompositeNumberColumn.dump x)).getLabel compute row i =
        x.getLabel compute row i) ∧
    (∀ compute a b aI bI,
      (restoreColumn (CompositeNumberColumn.dump x)).compare compute a b aI bI =
        x.compare compute a b aI bI) ∧
    (restoreColumn (CompositeNumberColumn.dump x)).children = x.children ∧
    (restoreColumn (CompositeNumberColumn.dump x)).width = x.width := by
  rw [restore_dump_eq x hf]
  exact ⟨fun _ _ _ => rfl, fun _ _ _ => rfl, fun _ _ _ _ _ => rfl, rfl, rfl⟩

/-- Claim C7: `countMultiLevel` is 1 on a leaf and on a collapsed or
compressed multi-level composite regardless of its subtree, and
`1 + Math.max` of the children depths on an expanded multi-level
composite (the maximum of an empty child list being `-Infinity`, the
bottom element). -/
theorem countMultiLevel_spec :
    (∀ cp, countMultiLevel (ColTree.leaf cp) = 1) ∧
    (∀ cp ch, countMultiLevel (ColTree.multi true cp ch) = 1) ∧
    (∀ cl ch, countMultiLevel (ColTree.multi cl true ch) = 1) ∧
    (∀ ch, countMultiLevel (ColTree.multi false false ch) =
      1 + jsMaxList (ch.map countMultiLevel)) := by
  refine ⟨fun cp => by simp [countMultiLevel], fun cp ch => by simp [countMultiLevel],
    fun cl ch => by simp [countMultiLevel], fun ch => ?_⟩
  rw [countMultiLevel]
  simp [List.attach_map_val]

theorem restore_dump_roundtrip_w :
    colA.numberFormat = descFormat colA.desc ∧
    (restoreColumn (CompositeNumberColumn.dump colA)).getLabel computeEx [7] 0 =
      colA.getLabel computeEx [7] 0 ∧
    (restoreColumn (CompositeNumberColumn.dump colA)).children =
      colA.children :=
  ⟨rfl, (restore_dump_roundtrip colA rfl).2.1 computeEx [7] 0,
    (restore_dump_roundtrip colA rfl).2.2.2.1⟩

/-! Lemmas about the histogram cache map. -/

theorem mapGet_mapSet_self (m : Cache) (k : String) (v : Option StatsHandle) :
    mapGet (mapSet m k v) k = some v := by
  induction m with
  | nil => simp [mapSet, mapGet]
  | cons hd tl ih =>
    obtain ⟨k2, v2⟩ := hd
    by_cases h : k2 = k <;> simp [mapSet, mapGet, h, ih]

theorem mapGet_mapSet_ne (m : Cache) (k k2 : String) (v : Option StatsHandle)
    (h : k2 ≠ k) : mapGet (mapSet m k v) k2 = mapGet m k2 := by
  induction m with
  | nil => simp [mapSet, mapGet, Ne.symm h]
  | cons hd tl ih =>
    obtain ⟨k3, v3⟩ := hd
    by_cases h3 : k3 = k
    · subst h3
      simp [mapSet, mapGet, Ne.symm h]
    · by_cases h32 : k3 = k2 <;> simp [mapSet, mapGet, h3, h32, h, ih]

theorem setAll_not_mem (f : RCol → Option StatsHandle) :
    ∀ (cols : List RCol) (m : Cache) (k : String),
      k ∉ cols.map (fun c => c.id) →
      mapGet (setAll f cols m) k = mapGet m k := by
  intro cols
  induction cols with
  | nil => intro m k _; rfl
  | cons c tl ih =>
    intro m k h
    simp only [List.map_cons, List.mem_cons] at h
    push_neg at h
    rw [show setAll f (c :: tl) m = setAll f tl (mapSet m c.id (f c)) from rfl,
      ih _ _ h.2, mapGet_mapSet_ne _ _ _ _ h.1]

theorem setAll_mem (f : RCol → Option StatsHandle) :
    ∀ (cols : List RCol) (m : Cache) (c : RCol),
      (cols.map (fun x => x.id)).Nodup → c ∈ cols →
      mapGet (setAll f cols m) c.id = some (f c) := by
  intro cols
  induction cols with
  | nil => intro m c _ hc; cases hc
  | cons c0 tl ih =>
    intro m c hnd hc
    rw [List.map_cons, List.nodup_cons] at hnd
    rcases List.mem_cons.mp hc with h | htl
    · subst h
      rw [show setAll f (c :: tl) m = setAll f tl (mapSet m c.id (f c)) from rfl,
        setAll_not_mem f tl _ c.id hnd.1, mapGet_mapSet_self]
    · rw [show setAll f (c0 :: tl) m = setAll f tl (mapSet m c0.id (f c0)) from rfl]
      exact ih _ c hnd.2 htl

theorem updateHistRanking_not_touched (m : Cache) (r : Ranking) (k : String)
    (h : k ∉ touched r) :
    mapGet (updateHistRanking m r) k = mapGet m k := by
  simp only [touched, List.mem_append] at h
  push_neg at h
  simp only [updateHistRanking]
  rw [setAll_not_mem _ _ _ _ h.2, setAll_not_mem _ _ _ _ h.1]

theorem updateHistRanking_get (m : Cache) (r : Ranking) (c : RCol)
    (hnd : (touched r).Nodup) (hc : c ∈ r.flatColumns)
    (hvis : c.hidden = false)
    (hkind : c.kind = ColKind.number ∨ c.kind = ColKind.categorical) :
    mapGet (updateHistRanking m r) c.id = some (freshEntry r c) := by
  obtain ⟨hnd1, hnd2, hdisj⟩ := List.nodup_append.mp (by simpa [touched] using hnd)
  rcases hkind with hk | hk
  · have hmem : c ∈ numVisible r := by
      simp [numVisible, List.mem_filter, hc, hk, hvis]
    have hid : c.id ∈ (numVisible r).map (fun x => x.id) :=
      List.mem_map_of_mem _ hmem
    have hncat : c.id ∉ (catVisible r).map (fun x => x.id) :=
      fun hmm => hdisj hid hmm
    simp only [updateHistRanking]
    rw [setAll_not_mem _ _ _ _ hncat, setAll_mem _ _ _ _ hnd1 hmem]
    simp [freshEntry, hk]
  · have hmem : c ∈ catVisible r := by
      simp [catVisible, List.mem_filter, hc, hk, hvis]
    simp only [updateHistRanking]
    rw [setAll_mem _ _ _ _ hnd2 hmem]
    have hknum : c.kind ≠ ColKind.number := by simp [hk]
    simp [freshEntry, hk]

theorem updateHist_not_touched :
    ∀ (rankings : List Ranking) (m : Cache) (k : String),
      k ∉ (rankings.map touched).flatten →
      mapGet (updateHist m rankings) k = mapGet m k := by
  intro rankings
  induction rankings with
  | nil => intro m k _; rfl
  | cons r tl ih =>
    intro m k h
    simp only [List.map_cons, List.flatten_cons, List.mem_append] at h
    push_neg at h
    rw [show updateHist m (r :: tl) = updateHist (updateHistRanking m r) tl
        from rfl,
      ih _ _ h.2, updateHistRanking_not_touched _ _ _ h.1]

theorem updateHist_get :
    ∀ (rankings : List Ranking) (m : Cache) (r : Ranking) (c : RCol),
      ((rankings.map touched).flatten).Nodup → r ∈ rankings →
      c ∈ r.flatColumns → c.hidden = false →
      (c.kind = ColKind.number ∨ c.kind = ColKind.categorical) →
      mapGet (updateHist m rankings) c.id = some (freshEntry r c) := by
  intro rankings
  induction rankings with
  | nil => intro m r c _ hr; cases hr
  | cons r0 tl ih =>
    intro m r c hnd hr hc hvis hkind
    obtain ⟨hnd0, hndtl, hdisj⟩ :=
      List.nodup_append.mp (by simpa using hnd)
    rw [show updateHist m (r0 :: tl) = updateHist (updateHistRanking m r0) tl
        from rfl]
    rcases List.mem_cons.mp hr with h | htl
    · subst h
      have htouch : c.id ∈ touched r := by
        rcases hkind with hk | hk
        · exact List.mem_append.mpr (Or.inl (List.mem_map_of_mem _
            (by simp [numVisible, List.mem_filter, hc, hk, hvis])))
        · exact List.mem_append.mpr (Or.inr (List.mem_map_of_mem _
            (by simp [catVisible, List.mem_filter, hc, hk, hvis])))
      have hrest : c.id ∉ (tl.map touched).flatten := fun hmm => hdisj htouch hmm
      rw [updateHist_not_touched tl _ _ hrest]
      exact updateHistRanking_get m r c hnd0 hc hvis hkind
    · exact ih _ r c hndtl htl hc hvis hkind

/-- Claim C8: the histogram cache is keyed by column identifier, and
the order-changed reaction (with histograms enabled) performs a
wholesale refresh: for every ranking and every visible number or
categorical column of it (identifiers being unique), the cache entry
under that column identifier afterwards is the freshly computed
statistics handle for the current order of its ranking — independently
of whatever the cache held before. -/
theorem histCache_wholesale (m : Cache) (rankings : List Ranking)
    (hnd : ((rankings.map touched).flatten).Nodup)
    (r : Ranking) (hr : r ∈ rankings) (c : RCol)
    (hc : c ∈ r.flatColumns) (hvis : c.hidden = false)
    (hkind : c.kind = ColKind.number ∨ c.kind = ColKind.categorical) :
    mapGet (handleOrderChanged true m rankings) c.id =
      some (freshEntry r c) :=
  updateHist_get rankings m r c hnd hr hc hvis hkind

theorem histCache_wholesale_w :
    mapGet
      (handleOrderChanged true [("n1", none)]
        [{ order := some [0, 1],
           flatColumns := [{ id := "n1", kind := ColKind.number,
                             hidden := false }] }])
      "n1" = some (some (StatsHandle.stats [0, 1] "n1")) :=
  histCache_wholesale [("n1", none)]
    [{ order := some [0, 1],
       flatColumns := [{ id := "n1", kind := ColKind.number,
                         hidden := false }] }]
    (by decide)
    { order := some [0, 1],
      flatColumns := [{ id := "n1", kind := ColKind.number,
                        hidden := false }] }
    (by simp)
    { id := "n1", kind := ColKind.number, hidden := false }
    (by simp) rfl (Or.inl rfl)

end LineUpVerify
